import Mathlib

/-!
# Verification of the `logfilewriter` rotation/archival/retention engine

A shallow embedding of `logfilewriter.go` (package `logfilewriter`).
File-system side effects are represented explicitly as values of an
effect type `Eff`; external I/O outcomes (open/create/copy results,
directory listings, the wall clock) are passed in as parameters, since
the Go code receives them from the operating system.

Machine integers (`int64`) are modelled as `Int`; Go's `int64` division
truncates toward zero, which is `Int.tdiv`.  Go string lengths are byte
counts; every string compared or measured by the code under study is
plain ASCII (date digits, `-`, and user-chosen names), for which byte
count and character count agree, so strings are modelled as Lean
`String` with `List Char` contents.
-/

namespace LogFileWriter

/-! ## Characters and digit parsing (models Go `time` package digit handling) -/

def isDigitChar (c : Char) : Bool := 48 ≤ c.toNat && c.toNat ≤ 57

def digitVal (c : Char) : Nat := c.toNat - 48

/-- Calendar date, as produced by Go `time.Parse("20060102", s)`. -/
structure GoDate where
  year : Nat
  month : Nat
  day : Nat
deriving DecidableEq, Repr

/-- Wall-clock time of day attached to a date, as produced by
Go `time.Parse("20060102-150405", s)`. -/
structure GoTime where
  date : GoDate
  hour : Nat
  minute : Nat
  second : Nat
deriving DecidableEq, Repr

/-- Gregorian leap-year rule used by Go's `time` package. -/
def isLeapYear (y : Nat) : Bool :=
  y % 4 == 0 && (y % 100 != 0 || y % 400 == 0)

/-- Number of days in a month, as validated by Go `time.Parse`
("day out of range"). -/
def daysInMonth (y m : Nat) : Nat :=
  if m = 2 then (if isLeapYear y then 29 else 28)
  else if m = 4 ∨ m = 6 ∨ m = 9 ∨ m = 11 then 30
  else 31

/-- Go `time.Parse(archiveDateLayout, s)` with `archiveDateLayout = "20060102"`:
exactly eight ASCII digits, month `1..12`, day valid for the month.
Returns `none` where Go returns a parse error. -/
def parseDate (s : String) : Option GoDate :=
  match s.data with
  | [y1, y2, y3, y4, m1, m2, d1, d2] =>
    if (isDigitChar y1 && isDigitChar y2 && isDigitChar y3 && isDigitChar y4 &&
        isDigitChar m1 && isDigitChar m2 && isDigitChar d1 && isDigitChar d2) then
      let y := ((digitVal y1 * 10 + digitVal y2) * 10 + digitVal y3) * 10 + digitVal y4
      let m := digitVal m1 * 10 + digitVal m2
      let d := digitVal d1 * 10 + digitVal d2
      if 1 ≤ m && m ≤ 12 && 1 ≤ d && d ≤ daysInMonth y m then
        some ⟨y, m, d⟩
      else none
    else none
  | _ => none

/-- Go `time.Parse(fileTimeLayout, s)` with `fileTimeLayout = "20060102-150405"`:
a date, a literal `-`, then hour `0..23`, minute `0..59`, second `0..59`. -/
def parseFileTime (s : String) : Option GoTime :=
  match s.data with
  | [y1, y2, y3, y4, mo1, mo2, d1, d2, sep, h1, h2, mi1, mi2, s1, s2] =>
    if (isDigitChar y1 && isDigitChar y2 && isDigitChar y3 && isDigitChar y4 &&
        isDigitChar mo1 && isDigitChar mo2 && isDigitChar d1 && isDigitChar d2 &&
        sep == '-' &&
        isDigitChar h1 && isDigitChar h2 && isDigitChar mi1 && isDigitChar mi2 &&
        isDigitChar s1 && isDigitChar s2) then
      let y := ((digitVal y1 * 10 + digitVal y2) * 10 + digitVal y3) * 10 + digitVal y4
      let mo := digitVal mo1 * 10 + digitVal mo2
      let d := digitVal d1 * 10 + digitVal d2
      let h := digitVal h1 * 10 + digitVal h2
      let mi := digitVal mi1 * 10 + digitVal mi2
      let sec := digitVal s1 * 10 + digitVal s2
      if 1 ≤ mo && mo ≤ 12 && 1 ≤ d && d ≤ daysInMonth y mo &&
         h ≤ 23 && mi ≤ 59 && sec ≤ 59 then
        some ⟨⟨y, mo, d⟩, h, mi, sec⟩
      else none
    else none
  | _ => none

/-- Two-digit zero-padded decimal, as Go `time.Format` renders month, day,
hour, minute and second fields. -/
def pad2 (n : Nat) : List Char := [Nat.digitChar (n / 10 % 10), Nat.digitChar (n % 10)]

/-- Four-digit zero-padded decimal, as Go `time.Format` renders the year of
dates below year 10000 (every parsed date is). -/
def pad4 (n : Nat) : List Char :=
  [Nat.digitChar (n / 1000 % 10), Nat.digitChar (n / 100 % 10),
   Nat.digitChar (n / 10 % 10), Nat.digitChar (n % 10)]

/-- Go `t.Format("20060102")`. -/
def formatDate (d : GoDate) : String :=
  ⟨pad4 d.year ++ pad2 d.month ++ pad2 d.day⟩

/-- Go `t.Format("20060102-150405")`. -/
def formatFileTime (t : GoTime) : String :=
  ⟨(formatDate t.date).data ++ '-' :: (pad2 t.hour ++ pad2 t.minute ++ pad2 t.second)⟩

/-- Days since the Unix epoch (1970-01-01) of a proleptic-Gregorian date,
the civil-from-days algorithm used to model Go `time.Time.Unix` for dates
parsed in UTC.  Every division below has a nonnegative dividend for the
years `0..9999` that `parseDate` can produce, where floor and truncating
division agree. -/
def daysFromCivil (y m d : Int) : Int :=
  let y' := if m ≤ 2 then y - 1 else y
  let era : Int := (if 0 ≤ y' then y' else y' - 399) / 400
  let yoe : Int := y' - era * 400
  let mp : Int := (m + 9) % 12
  let doy : Int := (153 * mp + 2) / 5 + d - 1
  let doe : Int := yoe * 365 + yoe / 4 - yoe / 100 + doy
  era * 146097 + doe - 719468

/-- Go `date.Unix()` for a date parsed by `time.Parse` (UTC midnight). -/
def GoDate.unix (d : GoDate) : Int :=
  86400 * daysFromCivil (d.year : Int) (d.month : Int) (d.day : Int)

/-! ## Directory entries and file-system effects -/

/-- One result of Go `os.ReadDir`: a name and whether it is a directory. -/
structure DirEntry where
  name : String
  isDir : Bool
deriving DecidableEq, Repr

/-- Go `filepath.Join` for the nonempty, already-clean path components the
code joins. -/
def pathJoin (a b : String) : String := a ++ "/" ++ b

/-- Go `strings.HasPrefix`. -/
def hasPrefixGo (s pre : String) : Bool := pre.data.isPrefixOf s.data

/-- Go `name[len(name)-n:]` for an `n`-byte suffix. -/
def strTakeLast (n : Nat) (s : String) : String :=
  ⟨s.data.drop (s.data.length - n)⟩

/-- File-system and scheduling side effects performed by the writer, in
program order. -/
inductive Eff where

  | mkdirAll (path : String)
  | openAttempt (path : String)
  | sleepSec (n : Nat)
  | setRotating (b : Bool)
  | resetCounter
  | swapFp (path : String)
  | closeHandle (path : String)
  | removeAll (path : String)
  | rename (src dst : String)
  | openRead (path : String)
  | createFile (path : String)
  | gzipCopy (src dst : String)
  | removeFile (path : String)
  | addCounter (n : Nat)
  | casRotating (won : Bool)
  | spawnRotate
  | handleWrite (n : Nat)
deriving DecidableEq, Repr

/-- Is this effect the retention sweeper's recursive delete
(`os.RemoveAll`)? -/
def Eff.isRemoveAll : Eff → Bool
  | .removeAll _ => true
  | _ => false

/-- Is this effect a rename (`os.Rename`)? -/
def Eff.isRename : Eff → Bool
  | .rename _ _ => true
  | _ => false

/-! ## Retention sweeper: `fileWriter.remove` / `removeArchive` -/

/-- Embeds `fileWriter.remove` (and the `removeArchive` calls it makes):
iterate the entries of `archiveDir`; skip non-directories, names whose
length differs from `len("20060102") = 8`, and names `time.Parse` rejects;
compute `days := (now.Unix() - date.Unix()) / (24*3600)` with Go `int64`
(truncating) division; skip when `days <= rotateDays`, otherwise
`os.RemoveAll(filepath.Join(archiveDir, name))`.
`nowUnix` models `time.Now().Unix()`. -/
def remove (root : String) (rotateDays nowUnix : Int) : List DirEntry → List Eff
  | [] => []
  | e :: es =>
    if e.isDir = false then remove root rotateDays nowUnix es
    else if e.name.length ≠ 8 then remove root rotateDays nowUnix es
    else
      match parseDate e.name with
      | none => remove root rotateDays nowUnix es
      | some date =>
        if Int.tdiv (nowUnix - date.unix) (24 * 3600) ≤ rotateDays then
          remove root rotateDays nowUnix es
        else
          Eff.removeAll (pathJoin root e.name) :: remove root rotateDays nowUnix es

/-- The retention sweep as the specification states it: among entries whose
name parses as an 8-digit date, delete (recursively) exactly the
directories whose age `(now − date) / 86400`, in truncating integer
division, strictly exceeds `retentionDays`; everything else is untouched. -/
def retentionSpec (root : String) (rotateDays nowUnix : Int) (entries : List DirEntry) : List Eff :=
  entries.filterMap fun e =>
    match parseDate e.name with
    | some date =>
      if e.isDir = true ∧ rotateDays < Int.tdiv (nowUnix - date.unix) 86400 then
        some (Eff.removeAll (pathJoin root e.name))
      else none
    | none => none

/-! ## Archiver: `fileWriter.archive` / `fileWriter.archiveFile` -/

/-- Results of the external I/O calls `archiveFile` makes for one candidate
file: `os.MkdirAll`, `os.Open` of the source, `os.OpenFile` of the `.gz`
destination, and `io.Copy` through the gzip writer. -/
structure ArchiveOutcome where
  mkdirOk : Bool
  openSrcOk : Bool
  createDstOk : Bool
  copyOk : Bool
deriving DecidableEq, Repr

/-- Embeds `fileWriter.archiveFile(name, t)`.  `activeBase` models
`filepath.Base(fw.fp.Load().Name())`.  A candidate named like the active
handle is skipped.  Otherwise the destination directory is
`filepath.Join(fw.archiveDir, t.Format("20060102"))` — `t` being the
timestamp parsed from the file's own name.  Without compression the file
is renamed into it; with compression the bytes are gzip-copied into
`<name>.gz` and only after a successful copy is the original removed.
Each failing step returns early (the deferred `Close` calls release
handles and are not file-name-visible effects). -/
def archiveFile (dir root : String) (compress : Bool) (activeBase : String)
    (name : String) (t : GoTime) (oc : ArchiveOutcome) : List Eff :=
  if name = activeBase then []
  else
    let adir := pathJoin root (formatDate t.date)
    if oc.mkdirOk = false then [Eff.mkdirAll adir]
    else
      let originFile := pathJoin dir name
      let archiveDest := pathJoin adir name
      if compress = false then
        [Eff.mkdirAll adir, Eff.rename originFile archiveDest]
      else
        if oc.openSrcOk = false then
          [Eff.mkdirAll adir, Eff.openRead originFile]
        else if oc.createDstOk = false then
          [Eff.mkdirAll adir, Eff.openRead originFile, Eff.createFile (archiveDest ++ ".gz")]
        else if oc.copyOk = false then
          [Eff.mkdirAll adir, Eff.openRead originFile, Eff.createFile (archiveDest ++ ".gz"),
           Eff.gzipCopy originFile (archiveDest ++ ".gz")]
        else
          [Eff.mkdirAll adir, Eff.openRead originFile, Eff.createFile (archiveDest ++ ".gz"),
           Eff.gzipCopy originFile (archiveDest ++ ".gz"), Eff.removeFile originFile]

/-- Embeds the body of the `archive` scan loop for one directory entry:
skip directories, names whose length is not `len(file) + 1 + 15`, names
without the `file ++ "-"` suffix separator, and names whose trailing 15
bytes do not parse with layout `"20060102-150405"`; pass the survivors to
`archiveFile`. -/
def archiveEntry (dir root : String) (compress : Bool) (file activeBase : String)
    (oc : String → ArchiveOutcome) (e : DirEntry) : List Eff :=
  if e.isDir = true then []
  else if e.name.length ≠ file.length + 1 + 15 then []
  else if hasPrefixGo e.name (file ++ "-") = false then []
  else
    match parseFileTime (strTakeLast 15 e.name) with
    | none => []
    | some t => archiveFile dir root compress activeBase e.name t (oc e.name)

/-- Embeds `fileWriter.archive`: list `fw.dir` (a failed `os.ReadDir` is
`none` and the pass does nothing), then run the scan-loop body on every
entry in order. -/
def archive (dir root : String) (compress : Bool) (file activeBase : String)
    (oc : String → ArchiveOutcome) (entriesRes : Option (List DirEntry)) : List Eff :=
  match entriesRes with
  | none => []
  | some es => es.flatMap (archiveEntry dir root compress file activeBase oc)

/-! ## Writer state, configuration and the rotation pass -/

/-- The configuration fields of `fileWriter` (set once by `New`). -/
structure WriterConfig where
  dir : String
  file : String
  sizeLimit : Int
  archiveDir : String
  compress : Bool
  rotateDays : Int
deriving DecidableEq, Repr

/-- The destination the atomic pointer `fw.fp` holds: a real log file or
the fallback stream `os.Stdout`. -/
inductive Handle where
  | stdout
  | file (path : String)
deriving DecidableEq, Repr

/-- Go `fp.Name()`: the path the file was opened with; `os.Stdout.Name()`
is `"/dev/stdout"`. -/
def Handle.path : Handle → String
  | .stdout => "/dev/stdout"
  | .file p => p

/-- Go `filepath.Base` for the nonempty, slash-separated paths that occur
here. -/
def baseNameGo (s : String) : String :=
  ⟨(s.data.reverse.takeWhile (fun c => c ≠ '/')).reverse⟩

/-- `filepath.Base(fp.Name())`, the comparison key `archiveFile` uses to
skip the active file. -/
def Handle.baseName (h : Handle) : String := baseNameGo h.path

/-- The mutable fields of `fileWriter`: the `rotating` guard, the byte
counter `wn`, and the active handle `fp`. -/
structure WriterState where
  rotating : Bool
  wn : Int
  fp : Handle
deriving DecidableEq, Repr

/-- External inputs consumed by one rotation pass (`remove` + `archive`):
the wall clock seen by `remove`, the two directory listings (`none`
models a `ReadDir` error), and the per-file I/O outcomes. -/
structure RotateEnv where
  nowUnix : Int
  archiveEntries : Option (List DirEntry)
  dirEntries : Option (List DirEntry)
  outcomes : String → ArchiveOutcome

/-- Embeds `fileWriter.rotate`: if `fw.archiveDir` is nonempty, run the
retention sweep `remove` and then the archival scan `archive`; otherwise
do nothing.  `activeBase` is the base name of the handle current at scan
time. -/
def rotate (cfg : WriterConfig) (activeBase : String) (env : RotateEnv) : List Eff :=
  if cfg.archiveDir = "" then []
  else
    (match env.archiveEntries with
     | none => []
     | some es => remove cfg.archiveDir cfg.rotateDays env.nowUnix es) ++
    archive cfg.dir cfg.archiveDir cfg.compress cfg.file activeBase env.outcomes env.dirEntries

/-- External inputs consumed by `replaceAndRotate`: the wall clock naming
the new file, whether `os.OpenFile` succeeded, and the rotation pass's
inputs. -/
structure ReplaceEnv where
  nowTime : GoTime
  openOk : Bool
  rotateEnv : RotateEnv

/-- Embeds `fileWriter.replaceAndRotate`.  The new file is
`filepath.Join(fw.dir, fw.file) + "-" + now.Format("20060102-150405")`.
On open failure: sleep the 10s retry interval and return (the deferred
store releases the `rotating` guard); the counter, the handle and the
directories are untouched.  On success: reset `wn`, swap `fp`, close the
previous handle after the 10s grace delay when it was a real file, run
`rotate`, release the guard. -/
def replaceAndRotate (cfg : WriterConfig) (st : WriterState) (env : ReplaceEnv) :
    WriterState × List Eff :=
  let newName := pathJoin cfg.dir cfg.file ++ "-" ++ formatFileTime env.nowTime
  if env.openOk = false then
    ({ st with rotating := false },
     [Eff.mkdirAll cfg.dir, Eff.openAttempt newName, Eff.sleepSec 10, Eff.setRotating false])
  else
    let old := st.fp
    let newFp := Handle.file newName
    let closeEffs := if old ≠ Handle.stdout then [Eff.sleepSec 10, Eff.closeHandle old.path] else []
    ({ rotating := false, wn := 0, fp := newFp },
     [Eff.mkdirAll cfg.dir, Eff.openAttempt newName, Eff.resetCounter, Eff.swapFp newName] ++
       closeEffs ++ rotate cfg newFp.baseName env.rotateEnv ++ [Eff.setRotating false])

/-- Embeds `fileWriter.Write`.  `blen` is `len(b)`; `hres` models the
result of the external call `fw.fp.Load().Write(b)`, which the method
returns unchanged.  Go's `&&` short-circuits: the counter is only added
to when `fw.sizeLimit > 0`.  When the new total exceeds the limit the
guard CAS is attempted, and the winner spawns `replaceAndRotate` on a new
goroutine (effect `spawnRotate`); the write itself proceeds regardless. -/
def Write (cfg : WriterConfig) (st : WriterState) (blen : Nat)
    (hres : Nat × Option String) : WriterState × List Eff × (Nat × Option String) :=
  if 0 < cfg.sizeLimit then
    let wn' := st.wn + (blen : Int)
    if cfg.sizeLimit < wn' then
      if st.rotating = false then
        ({ st with wn := wn', rotating := true },
         [Eff.addCounter blen, Eff.casRotating true, Eff.spawnRotate, Eff.handleWrite blen], hres)
      else
        ({ st with wn := wn' },
         [Eff.addCounter blen, Eff.casRotating false, Eff.handleWrite blen], hres)
    else
      ({ st with wn := wn' }, [Eff.addCounter blen, Eff.handleWrite blen], hres)
  else
    (st, [Eff.handleWrite blen], hres)

/-- Embeds `fileWriter.Close`.  `closeRes` models the result of the
external call `fp.Close()`.  Returns the new state, the handle that was
closed (if any), and the error returned to the caller. -/
def Close (st : WriterState) (closeRes : Option String) :
    WriterState × Option Handle × Option String :=
  if st.fp = Handle.stdout then (st, none, none)
  else ({ st with fp := Handle.stdout }, some st.fp, closeRes)

/-! ## The rotation guard as a transition system

`Write` reaches `replaceAndRotate` only after winning
`atomic.CompareAndSwapInt32(&fw.rotating, 0, 1)`; the daily timer loop
`autoReplaceFileEveryday` calls `fw.replaceAndRotate()` with no guard at
all.  Every `replaceAndRotate` ends with the deferred
`atomic.StoreInt32(&fw.rotating, 0)`.  The interleaving of these accesses
is modelled as a transition system over two concurrent size-triggered
writers (`w1`, `w2`, each `true` while inside the rotation body) and the
timer goroutine (`tm`). -/

/-- Guard-protocol state: the `rotating` flag and which of the three
tasks are currently executing the rotation body. -/
structure RotState where
  rotating : Bool
  w1 : Bool
  w2 : Bool
  tm : Bool
deriving DecidableEq, Repr

/-- Initial state: flag clear, nobody rotating. -/
def RotState.init : RotState := ⟨false, false, false, false⟩

/-- One interleaving step of the guard protocol, as the source performs
it: a size-triggered writer enters the body only by a successful CAS of
`rotating` from 0 to 1; leaving the body performs the deferred store of
0; the timer enters the body with no guard and also performs the
deferred store of 0 on exit. -/
inductive RotStep : RotState → RotState → Prop
  | sizeEnter1 (s : RotState) : s.w1 = false → s.rotating = false →
      RotStep s ⟨true, true, s.w2, s.tm⟩
  | sizeEnter2 (s : RotState) : s.w2 = false → s.rotating = false →
      RotStep s ⟨true, s.w1, true, s.tm⟩
  | sizeExit1 (s : RotState) : s.w1 = true → RotStep s ⟨false, false, s.w2, s.tm⟩
  | sizeExit2 (s : RotState) : s.w2 = true → RotStep s ⟨false, s.w1, false, s.tm⟩
  | timerEnter (s : RotState) : s.tm = false → RotStep s ⟨s.rotating, s.w1, s.w2, true⟩
  | timerExit (s : RotState) : s.tm = true → RotStep s ⟨false, s.w1, s.w2, false⟩

/-- States reachable from `RotState.init` under arbitrary interleaving. -/
inductive RotReach : RotState → Prop
  | init : RotReach RotState.init
  | step {s s' : RotState} : RotReach s → RotStep s s' → RotReach s'

/-- The steps available when only size-triggered writers act (the timer
goroutine never fires). -/
inductive SizeStep : RotState → RotState → Prop
  | enter1 (s : RotState) : s.w1 = false → s.rotating = false →
      SizeStep s ⟨true, true, s.w2, s.tm⟩
  | enter2 (s : RotState) : s.w2 = false → s.rotating = false →
      SizeStep s ⟨true, s.w1, true, s.tm⟩
  | exit1 (s : RotState) : s.w1 = true → SizeStep s ⟨false, false, s.w2, s.tm⟩
  | exit2 (s : RotState) : s.w2 = true → SizeStep s ⟨false, s.w1, false, s.tm⟩

/-- States reachable from `RotState.init` by size-triggered steps alone. -/
inductive SizeReach : RotState → Prop
  | init : SizeReach RotState.init
  | step {s s' : RotState} : SizeReach s → SizeStep s s' → SizeReach s'

/-- Is the size-triggered path and the timer path simultaneously inside
the rotation body? -/
def bothTriggerPathsInBody (s : RotState) : Bool := (s.w1 || s.w2) && s.tm

/-! ## Theorems -/

theorem parseDate_some_length {s : String} {d : GoDate} (h : parseDate s = some d) :
    s.length = 8 := by
  obtain ⟨l⟩ := s
  rcases l with _ | ⟨a1, _ | ⟨a2, _ | ⟨a3, _ | ⟨a4, _ | ⟨a5, _ | ⟨a6, _ | ⟨a7, _ | ⟨a8, _ | ⟨a9, t⟩⟩⟩⟩⟩⟩⟩⟩⟩
  all_goals first
    | rfl
    | simp [parseDate] at h

/-- C6: the retention sweep `remove` coincides with the specification's
description `retentionSpec`: among entries of the archive root, exactly
the directories whose name parses as an 8-digit date and whose age
`(now − date) / 86400` (truncating integer division on Unix seconds)
strictly exceeds `retentionDays` are recursively deleted; an entry at
exactly the boundary, a non-directory, or an unparsable name is never
touched. -/
theorem retention_deletes_iff_age_exceeds (root : String) (rotateDays nowUnix : Int)
    (entries : List DirEntry) :
    remove root rotateDays nowUnix entries = retentionSpec root rotateDays nowUnix entries := by
  induction entries with
  | nil => rfl
  | cons e es ih =>
    rcases hp : parseDate e.name with _ | d
    · by_cases hd : e.isDir = false
      · simp [remove, retentionSpec, hd, hp, List.filterMap_cons, ih]
      · have hd' : e.isDir = true := by
          cases hb : e.isDir
          · exact absurd hb hd
          · rfl
        by_cases hl : e.name.length = 8
        · simp [remove, retentionSpec, hd', hl, hp, List.filterMap_cons, ih]
        · simp [remove, retentionSpec, hd', hl, hp, List.filterMap_cons, ih]
    · have hl : e.name.length = 8 := parseDate_some_length hp
      by_cases hd : e.isDir = false
      · have hd2 : ¬ e.isDir = true := by simp [hd]
        simp [remove, retentionSpec, hd, hd2, hp, List.filterMap_cons, ih]
      · have hd' : e.isDir = true := by
          cases hb : e.isDir
          · exact absurd hb hd
          · rfl
        by_cases hc : Int.tdiv (nowUnix - d.unix) 86400 ≤ rotateDays
        · have hc' : ¬ rotateDays < Int.tdiv (nowUnix - d.unix) 86400 := by omega
          simp [remove, retentionSpec, hd', hl, hp, hc, hc', List.filterMap_cons, ih]
        · have hc' : rotateDays < Int.tdiv (nowUnix - d.unix) 86400 := by omega
          simp [remove, retentionSpec, hd', hl, hp, hc, hc', List.filterMap_cons, ih]

theorem archiveFile_eq_nil_iff (dir root : String) (compress : Bool)
    (activeBase name : String) (t : GoTime) (oc : ArchiveOutcome) :
    archiveFile dir root compress activeBase name t oc = [] ↔ name = activeBase := by
  unfold archiveFile
  by_cases h : name = activeBase
  · simp [h]
  · simp only [h, if_false]
    split_ifs <;> simp

/-- C7: an entry of the write directory is acted upon by the archival scan
(`archiveEntry` produces at least one effect) exactly when it is not a
directory, its name has length `len(baseName) + 1 + 15`, it starts with
`baseName ++ "-"`, its trailing 15 bytes parse with layout
`"20060102-150405"`, and its name differs from the base name of the
currently active handle; in particular a candidate named like the active
handle is skipped and never archived. -/
theorem archive_candidate_iff (dir root : String) (compress : Bool)
    (file activeBase : String) (oc : String → ArchiveOutcome) (e : DirEntry) :
    archiveEntry dir root compress file activeBase oc e ≠ [] ↔
      (e.isDir = false ∧ e.name.length = file.length + 1 + 15 ∧
       hasPrefixGo e.name (file ++ "-") = true ∧
       (parseFileTime (strTakeLast 15 e.name)).isSome = true ∧
       e.name ≠ activeBase) := by
  unfold archiveEntry
  by_cases h1 : e.isDir = true
  · simp [h1]
  · have h1' : e.isDir = false := by
      cases hb : e.isDir
      · rfl
      · exact absurd hb h1
    by_cases h2 : e.name.length = file.length + 1 + 15
    · by_cases h3 : hasPrefixGo e.name (file ++ "-") = true
      · rcases hp : parseFileTime (strTakeLast 15 e.name) with _ | t
        · simp [h1', h2, h3, hp]
        · simp [h1', h2, h3, hp, archiveFile_eq_nil_iff]
      · have h3' : hasPrefixGo e.name (file ++ "-") = false := by
          cases hb : hasPrefixGo e.name (file ++ "-")
          · rfl
          · exact absurd hb h3
        simp [h1', h2, h3, h3']
    · simp [h1', h2]

/-- C9: in the compressing archival path, the original is removed exactly
when the active-file skip does not apply and the mkdir, the source open,
the destination create and the gzip copy all succeeded; in the
all-success run the copy effect precedes the remove, the pass never
renames the original, and candidates are processed independently, so one
candidate's failure leaves the effects of the other entries unchanged. -/
theorem gzip_deletes_only_after_copy (dir root : String) (activeBase name : String)
    (t : GoTime) (oc : ArchiveOutcome) :
    ((Eff.removeFile (pathJoin dir name) ∈ archiveFile dir root true activeBase name t oc) ↔
      (name ≠ activeBase ∧ oc.mkdirOk = true ∧ oc.openSrcOk = true ∧
       oc.createDstOk = true ∧ oc.copyOk = true)) ∧
    (archiveFile dir root true activeBase name t ⟨true, true, true, true⟩ =
      if name = activeBase then []
      else
        [Eff.mkdirAll (pathJoin root (formatDate t.date)),
         Eff.openRead (pathJoin dir name),
         Eff.createFile (pathJoin (pathJoin root (formatDate t.date)) name ++ ".gz"),
         Eff.gzipCopy (pathJoin dir name) (pathJoin (pathJoin root (formatDate t.date)) name ++ ".gz"),
         Eff.removeFile (pathJoin dir name)]) ∧
    ((archiveFile dir root true activeBase name t oc).all (fun x => !x.isRename) = true) ∧
    (∀ (file : String) (ocf : String → ArchiveOutcome) (es₁ es₂ : List DirEntry),
      archive dir root true file activeBase ocf (some (es₁ ++ es₂)) =
        archive dir root true file activeBase ocf (some es₁) ++
          archive dir root true file activeBase ocf (some es₂)) := by
  refine ⟨?_, ?_, ?_, ?_⟩
  · by_cases h : name = activeBase
    · simp [archiveFile, h]
    · obtain ⟨m, s2, d2, c⟩ := oc
      cases m <;> cases s2 <;> cases d2 <;> cases c <;>
        simp [archiveFile, h, Eff.isRename]
  · by_cases h : name = activeBase <;> simp [archiveFile, h]
  · by_cases h : name = activeBase
    · simp [archiveFile, h]
    · obtain ⟨m, s2, d2, c⟩ := oc
      cases m <;> cases s2 <;> cases d2 <;> cases c <;>
        simp [archiveFile, h, Eff.isRename]
  · intro file ocf es₁ es₂
    simp [archive, List.flatMap_append]

/-- C10: `Close` is idempotent and never double-closes: after any call the
slot holds the fallback stream; the handle it reports closed and the
error it returns are those of the real file only on a first close; a
second call closes nothing and returns no error. -/
theorem close_idempotent (st : WriterState) (r1 r2 : Option String) :
    ((Close st r1).1.fp = Handle.stdout) ∧
    ((Close st r1).2.1 = (if st.fp = Handle.stdout then none else some st.fp)) ∧
    ((Close st r1).2.2 = (if st.fp = Handle.stdout then none else r1)) ∧
    (Close (Close st r1).1 r2 = ((Close st r1).1, none, none)) := by
  by_cases h : st.fp = Handle.stdout <;>
    simp [Close, h]

/-- C3 counterexample: `Write` returns the underlying handle write's
result unchanged, so when that write fails the caller does receive an
error, refuting "the result reported to the caller is always success".
Here the writer is in its initial state after a failed open (fallback
stream active, no size limit) and the stream write fails. -/
theorem write_error_reaches_caller_counterexample :
    (Write ⟨"logs", "app", 0, "", false, 0⟩ ⟨false, 0, Handle.stdout⟩ 3
        (0, some "input/output error")).2.2.2 = some "input/output error" := by
  rfl

/-- C3 amended: `Write` returns to the caller exactly the count and error
of the underlying handle write (`fw.fp.Load().Write(b)`); it neither
raises an error of its own nor swallows one, so the caller sees success
precisely when the underlying write succeeded. -/
theorem write_returns_handle_result (cfg : WriterConfig) (st : WriterState)
    (blen : Nat) (hres : Nat × Option String) :
    ((Write cfg st blen hres).2.2 = hres) ∧
    ((Write cfg st blen hres).2.2.2 = none ↔ hres.2 = none) := by
  unfold Write
  by_cases h1 : 0 < cfg.sizeLimit
  · by_cases h2 : cfg.sizeLimit < st.wn + (blen : Int)
    · by_cases h3 : st.rotating = false <;> simp [h1, h2, h3]
    · simp [h1, h2]
  · simp [h1]

/-- C5 counterexample: with the size limit unset (`0`), Go's
short-circuited `&&` skips the `atomic.AddInt64`, so an append of 5 bytes
leaves the counter at `0`, refuting "on every append the counter is
incremented by the byte length". -/
theorem write_counter_not_always_incremented_counterexample :
    ((Write ⟨"logs", "app", 0, "", false, 0⟩ ⟨false, 0, Handle.stdout⟩ 5 (5, none)).1.wn = 0) ∧
    ((Write ⟨"logs", "app", 0, "", false, 0⟩ ⟨false, 0, Handle.stdout⟩ 5 (5, none)).1.wn ≠ 0 + 5) := by
  constructor
  · rfl
  · decide

/-- C5 amended: when the size limit is set, every append first adds the
byte length to the counter (the counter effect precedes the handle-write
effect, which is always the last effect of the call) and the guard CAS —
the start of a rotation attempt — happens exactly when the new total
strictly exceeds the limit; when the limit is unset the counter is
untouched and no rotation attempt starts.  The rotation itself is only
spawned (`spawnRotate`), and the value returned to the caller is the
handle write's result, independent of rotation. -/
theorem write_counter_and_rotation_trigger (cfg : WriterConfig) (st : WriterState)
    (blen : Nat) (hres : Nat × Option String) :
    ((Write cfg st blen hres).1.wn =
        (if 0 < cfg.sizeLimit then st.wn + (blen : Int) else st.wn)) ∧
    ((∃ w, Eff.casRotating w ∈ (Write cfg st blen hres).2.1) ↔
        (0 < cfg.sizeLimit ∧ cfg.sizeLimit < st.wn + (blen : Int))) ∧
    ((Write cfg st blen hres).2.1.head? =
        some (if 0 < cfg.sizeLimit then Eff.addCounter blen else Eff.handleWrite blen)) ∧
    ((Write cfg st blen hres).2.1.getLast? = some (Eff.handleWrite blen)) ∧
    ((Write cfg st blen hres).2.2 = hres) := by
  unfold Write
  by_cases h1 : 0 < cfg.sizeLimit
  · by_cases h2 : cfg.sizeLimit < st.wn + (blen : Int)
    · by_cases h3 : st.rotating = false <;>
        simp [h1, h2, h3, List.getLast?]
    · simp [h1, h2, List.getLast?]
  · simp [h1, List.getLast?]

/-- C8: when `os.OpenFile` fails during a rotation attempt, the attempt is
abandoned with the writer's state unchanged except the guard: the
counter is not reset, the handle is not swapped, no retention or archive
effect is performed, and the guard is released (`rotating := false`, by
the deferred store) after the fixed 10-second retry delay. -/
theorem rotation_open_failure_aborts (cfg : WriterConfig) (st : WriterState)
    (env : ReplaceEnv) (h : env.openOk = false) :
    replaceAndRotate cfg st env =
      ({ st with rotating := false },
       [Eff.mkdirAll cfg.dir,
        Eff.openAttempt (pathJoin cfg.dir cfg.file ++ "-" ++ formatFileTime env.nowTime),
        Eff.sleepSec 10, Eff.setRotating false]) := by
  unfold replaceAndRotate
  simp [h]

theorem rotation_open_failure_aborts_witness :
    ((⟨⟨⟨2024, 1, 2⟩, 3, 4, 5⟩, false,
        ⟨0, none, none, fun _ => ⟨true, true, true, true⟩⟩⟩ : ReplaceEnv).openOk = false) ∧
    ((replaceAndRotate ⟨"logs", "app", 100, "", false, 0⟩
        ⟨true, 7, Handle.file "logs/app-20240101-000000"⟩
        ⟨⟨⟨2024, 1, 2⟩, 3, 4, 5⟩, false,
         ⟨0, none, none, fun _ => ⟨true, true, true, true⟩⟩⟩).1 =
      ⟨false, 7, Handle.file "logs/app-20240101-000000"⟩) :=
  ⟨rfl, by rw [rotation_open_failure_aborts _ _ _ rfl]⟩

theorem remove_effects_are_removeAll (root : String) (rotateDays nowUnix : Int)
    (es : List DirEntry) :
    (remove root rotateDays nowUnix es).all Eff.isRemoveAll = true := by
  induction es with
  | nil => rfl
  | cons e es ih =>
    unfold remove
    split_ifs <;> first
      | exact ih
      | (rcases hp : parseDate e.name with _ | d
         · simpa [hp] using ih
         · simp only [hp]
           split_ifs <;> simp [Eff.isRemoveAll, ih])

theorem archiveFile_no_removeAll (dir root : String) (compress : Bool)
    (activeBase name : String) (t : GoTime) (oc : ArchiveOutcome) :
    (archiveFile dir root compress activeBase name t oc).all (fun x => !x.isRemoveAll) = true := by
  unfold archiveFile
  split_ifs <;> simp [Eff.isRemoveAll]

theorem archive_no_removeAll (dir root : String) (compress : Bool)
    (file activeBase : String) (oc : String → ArchiveOutcome)
    (entriesRes : Option (List DirEntry)) :
    (archive dir root compress file activeBase oc entriesRes).all
      (fun x => !x.isRemoveAll) = true := by
  rcases entriesRes with _ | es
  · rfl
  · induction es with
    | nil => rfl
    | cons e es ih =>
      have he : (archiveEntry dir root compress file activeBase oc e).all
          (fun x => !x.isRemoveAll) = true := by
        unfold archiveEntry
        split_ifs <;> try rfl
        rcases hp : parseFileTime (strTakeLast 15 e.name) with _ | t
        · rfl
        · simpa [hp] using
            archiveFile_no_removeAll dir root compress activeBase e.name t (oc e.name)
      simp only [archive, List.flatMap_cons, List.all_append]
      rw [he]
      simpa [archive] using ih

/-- C4 counterexample: with `retentionDays` left at its unconfigured
default `0` but the archive root set, a rotation pass still runs the
retention sweep and deletes an old dated directory — refuting "the
Retention Sweeper runs only when both the archive root and the
retention-days setting are configured". -/
theorem retention_runs_with_unset_rotateDays_counterexample :
    ((⟨"logs", "app", 0, "arch", false, 0⟩ : WriterConfig).rotateDays = 0) ∧
    (Eff.removeAll "arch/20200101" ∈
      rotate ⟨"logs", "app", 0, "arch", false, 0⟩ "app-20240105-000000"
        ⟨GoDate.unix ⟨2024, 1, 5⟩, some [⟨"20200101", true⟩], some [],
         fun _ => ⟨true, true, true, true⟩⟩) := by
  constructor
  · rfl
  · decide

/-- C4 amended: the retention sweep is gated only on the archive root —
it runs on every rotation pass whenever `archiveDir` is nonempty,
regardless of the retention-days setting — and when the pass runs, all
recursive-delete effects of the sweep come before every effect of the
archival scan (which produces no recursive delete), so the sweep is the
first step of the pass. -/
theorem rotate_retention_gating_and_order (cfg : WriterConfig) (activeBase : String)
    (env : RotateEnv) :
    (rotate { cfg with archiveDir := "" } activeBase env = []) ∧
    (cfg.archiveDir = "" ∨
      rotate cfg activeBase env =
        (match env.archiveEntries with
         | none => []
         | some l => remove cfg.archiveDir cfg.rotateDays env.nowUnix l) ++
        archive cfg.dir cfg.archiveDir cfg.compress cfg.file activeBase env.outcomes
          env.dirEntries) ∧
    ((match env.archiveEntries with
      | none => []
      | some l => remove cfg.archiveDir cfg.rotateDays env.nowUnix l).all
        Eff.isRemoveAll = true) ∧
    ((archive cfg.dir cfg.archiveDir cfg.compress cfg.file activeBase env.outcomes
        env.dirEntries).all (fun x => !x.isRemoveAll) = true) := by
  refine ⟨by simp [rotate], ?_, ?_, archive_no_removeAll _ _ _ _ _ _ _⟩
  · by_cases h : cfg.archiveDir = ""
    · exact Or.inl h
    · exact Or.inr (by simp [rotate, h])
  · rcases env.archiveEntries with _ | l
    · rfl
    · exact remove_effects_are_removeAll _ _ _ _

/-- C1 counterexample: the file `app-20240102-030405`, archived while the
active handle is the file of a later day (2024-01-05), is placed under
the directory `arch/20240102` — the date embedded in its own name — and
that directory differs from the archival day's `arch/20240105`.  This
refutes "the destination date directory is named after the date of the
archival pass … never under a directory named 20240102". -/
theorem archive_dir_uses_file_date_counterexample :
    (parseFileTime (strTakeLast 15 "app-20240102-030405") = some ⟨⟨2024, 1, 2⟩, 3, 4, 5⟩) ∧
    (archiveEntry "logs" "arch" false "app" "app-20240105-000000"
        (fun _ => ⟨true, true, true, true⟩) ⟨"app-20240102-030405", false⟩ =
      [Eff.mkdirAll "arch/20240102",
       Eff.rename "logs/app-20240102-030405" "arch/20240102/app-20240102-030405"]) ∧
    ("arch/20240102" ≠ pathJoin "arch" (formatDate ⟨2024, 1, 5⟩)) := by
  refine ⟨by decide, by decide, by decide⟩

/-- C1 amended: the destination date directory of an archived file is
named after the date embedded in the file's own name — the first effect
of processing a selected candidate is creating
`<archiveRoot>/<date of the parsed trailing timestamp>` — independent of
when the archival pass runs (the scan consults no clock), so a file named
`<baseName>-20240102-030405` always lands under `20240102`. -/
theorem archive_dir_named_by_file_timestamp (dir root : String) (compress : Bool)
    (file activeBase : String) (oc : String → ArchiveOutcome) (e : DirEntry) (t : GoTime)
    (hp : parseFileTime (strTakeLast 15 e.name) = some t)
    (hne : archiveEntry dir root compress file activeBase oc e ≠ []) :
    (archiveEntry dir root compress file activeBase oc e).head? =
      some (Eff.mkdirAll (pathJoin root (formatDate t.date))) := by
  unfold archiveEntry at hne ⊢
  split_ifs at hne ⊢ <;> try exact absurd rfl hne
  rw [hp] at hne ⊢
  by_cases ha : e.name = activeBase
  · exact absurd (by simp [archiveFile, ha]) hne
  · unfold archiveFile
    simp only [ha, if_false]
    split_ifs <;> rfl

theorem archive_dir_named_by_file_timestamp_witness :
    (parseFileTime (strTakeLast 15 "app-20231231-235959") = some ⟨⟨2023, 12, 31⟩, 23, 59, 59⟩) ∧
    ((archiveEntry "logs" "arch" true "app" "other"
        (fun _ => ⟨true, true, true, true⟩) ⟨"app-20231231-235959", false⟩).head? =
      some (Eff.mkdirAll "arch/20231231")) :=
  ⟨by decide,
   archive_dir_named_by_file_timestamp "logs" "arch" true "app" "other"
     (fun _ => ⟨true, true, true, true⟩) ⟨"app-20231231-235959", false⟩
     ⟨⟨2023, 12, 31⟩, 23, 59, 59⟩ (by decide) (by decide)⟩

/-- C2 counterexample: the daily-timer path calls `replaceAndRotate`
without touching the guard, so from the initial state the timer can be
inside the rotation body while a size-triggered writer wins the CAS and
enters it too — a reachable state with both trigger paths executing the
rotation body simultaneously, refuting the claim. -/
theorem rotation_guard_bypassed_counterexample :
    RotReach ⟨true, true, false, true⟩ ∧
    bothTriggerPathsInBody ⟨true, true, false, true⟩ = true :=
  ⟨RotReach.step
      (RotReach.step RotReach.init (RotStep.timerEnter RotState.init rfl))
      (RotStep.sizeEnter1 ⟨false, false, false, true⟩ rfl rfl),
   rfl⟩

theorem sizeReach_guard_invariant {s : RotState} (h : SizeReach s) :
    (s.w1 = true → s.rotating = true) ∧ (s.w2 = true → s.rotating = true) ∧
    ¬(s.w1 = true ∧ s.w2 = true) := by
  induction h with
  | init => simp [RotState.init]
  | step _ hs ih =>
    obtain ⟨i1, i2, i3⟩ := ih
    cases hs with
    | enter1 h1 h2 =>
      refine ⟨fun _ => rfl, fun _ => rfl, ?_⟩
      rintro ⟨-, hw2⟩
      exact absurd (i2 hw2) (by simp [h2])
    | enter2 h1 h2 =>
      refine ⟨fun _ => rfl, fun _ => rfl, ?_⟩
      rintro ⟨hw1, -⟩
      exact absurd (i1 hw1) (by simp [h2])
    | exit1 h1 =>
      refine ⟨fun hw => absurd hw (by simp), fun hw2 => absurd ⟨h1, hw2⟩ i3, ?_⟩
      rintro ⟨hw1, -⟩
      exact absurd hw1 (by simp)
    | exit2 h1 =>
      refine ⟨fun hw1 => absurd ⟨hw1, h1⟩ i3, fun hw => absurd hw (by simp), ?_⟩
      rintro ⟨-, hw2⟩
      exact absurd hw2 (by simp)

/-- C2 amended: only the size-triggered path enters the rotation body
through the compare-and-set `rotating` guard; the daily timer invokes the
body unconditionally, so a timer rotation can overlap a size-triggered
one (see the counterexample).  Restricted to size-triggered executions —
interleavings built from CAS-guarded entries and guard-releasing exits
alone — the guard does give mutual exclusion: no reachable state has two
size-triggered writers inside the rotation body simultaneously. -/
theorem size_rotations_mutually_excluded (s : RotState) (h : SizeReach s) :
    ¬(s.w1 = true ∧ s.w2 = true) :=
  (sizeReach_guard_invariant h).2.2

theorem size_rotations_mutually_excluded_witness :
    ¬((⟨true, true, false, false⟩ : RotState).w1 = true ∧
      (⟨true, true, false, false⟩ : RotState).w2 = true) :=
  size_rotations_mutually_excluded ⟨true, true, false, false⟩
    (SizeReach.step SizeReach.init (SizeStep.enter1 RotState.init rfl rfl))

/-! ## Sanity checks of the date/time and path model on concrete values -/

example : daysFromCivil 1970 1 1 = 0 := by decide
example : daysFromCivil 2024 1 2 = 19724 := by decide
example : daysFromCivil 2000 3 1 = 11017 := by decide
example : parseDate "20240102" = some ⟨2024, 1, 2⟩ := by decide
example : parseDate "20240230" = none := by decide
example : parseDate "2024010a" = none := by decide
example : parseFileTime "20240102-030405" = some ⟨⟨2024, 1, 2⟩, 3, 4, 5⟩ := by decide
example : parseFileTime "20240102_030405" = none := by decide
example : formatDate ⟨2024, 1, 2⟩ = "20240102" := by decide
example : formatFileTime ⟨⟨2024, 1, 2⟩, 3, 4, 5⟩ = "20240102-030405" := by decide
example : GoDate.unix ⟨1970, 1, 2⟩ = 86400 := by decide
example : hasPrefixGo "app-20240102-030405" "app-" = true := by decide
example : strTakeLast 15 "app-20240102-030405" = "20240102-030405" := by decide
example :
    remove "arch" 7 (GoDate.unix ⟨2024, 1, 10⟩) [⟨"20240101", true⟩, ⟨"20240103", true⟩, ⟨"x", true⟩] =
      [Eff.removeAll "arch/20240101"] := by decide

end LogFileWriter
